import Mathlib

/-!
Verification model of the pvp-wheel game session engine.

The definitions below are a shallow embedding of the repository's code:

* the PL/pgSQL functions `recalculate_game_chances` and `add_gifts_to_game`
  together with the tables they touch (schema file with the `match_history`
  table, the authoritative variant);
* the Supabase helper layer `dbHelpers` in `src/lib/supabase.ts`
  (`completeGame`, `getMatchHistory`, `getGameParticipants`);
* the client logic in `src/hooks/useGameDatabase.ts`
  (`loadGameParticipants`) and `src/app/components/WheelGame.tsx`
  (the winner-selection loop and game-completion call of `spinWheel`).

Numeric SQL/JS values are modelled as rationals (`ℚ`), uuids as naturals,
timestamps as rationals.  SQL `NULL` is modelled with `Option`.  Fallible
operations return `Except String`; a PL/pgSQL error aborts the whole call,
so the pre-state is kept by the caller (transaction rollback).
-/

/-- JavaScript `a || b` on strings: the empty string (and, at call sites,
an absent value already defaulted to `""`) is falsy. -/
def jsOr (a b : String) : String :=
  if a = "" then b else a

/-! ## Rows of the SQL schema (single-game slice used by the RPC functions) -/

/-- A row of `game_participants` (for one fixed game).  `gifts_array`
elements are nullable in PostgreSQL (`array_append` accepts a NULL emoji),
hence `Option String`. -/
structure ParticipantRow where
  rowId : Nat
  playerId : Nat
  playerName : String
  giftValue : ℚ
  chancePercentage : ℚ
  color : String
  position : Int
  giftsArray : List (Option String)
deriving DecidableEq, Repr

/-- A row of `player_gifts` (the external wallet inventory).  `quantity`
is a SQL `integer`, so it may go negative. -/
structure PlayerGiftRow where
  playerId : Nat
  giftId : Nat
  quantity : Int
deriving DecidableEq, Repr

/-- A row of `game_participant_gifts` (per-item contributions). -/
structure ParticipantGiftRow where
  gameParticipantId : Nat
  giftId : Nat
  quantity : Int
  totalValue : ℚ
deriving DecidableEq, Repr

/-- A row of the `gifts` catalogue (only the fields the RPC reads). -/
structure GiftRow where
  giftId : Nat
  emoji : String
deriving DecidableEq, Repr

/-- The columns of the `games` row that the RPC functions touch. -/
structure GameRow where
  status : String
  totalPotBalance : ℚ
  totalPlayers : Nat
  countdownEndsAt : Option ℚ
deriving DecidableEq, Repr

/-- A row of `game_logs` (for one fixed game). -/
structure LogRow where
  playerId : Option Nat
  logType : String
  message : String
deriving DecidableEq, Repr

/-- The database slice for one game: its `games` row, its participants,
their per-item contributions, the wallet inventory, the gift catalogue and
the log.  `nextRowId` models `gen_random_uuid()` freshness for inserted
participant rows. -/
structure GameState where
  game : GameRow
  participants : List ParticipantRow
  participantGifts : List ParticipantGiftRow
  playerGifts : List PlayerGiftRow
  gifts : List GiftRow
  logs : List LogRow
  nextRowId : Nat
deriving DecidableEq, Repr

/-! ## recalculate_game_chances -/

/-- `SUM(gp.gift_value)` over the participants of the game. -/
def sumGiftValues (l : List ParticipantRow) : ℚ :=
  (l.map (fun p => p.giftValue)).sum

/-- The PL/pgSQL function `recalculate_game_chances`: recompute the total
pot and participant count, set every participant's `chance_percentage` to
`(gift_value / total) * 100` when the total is positive and `0` otherwise,
and store the total and the count on the `games` row. -/
def recalculate_game_chances (st : GameState) : GameState :=
  let total := sumGiftValues st.participants
  let count := st.participants.length
  { st with
    participants := st.participants.map (fun p =>
      { p with chancePercentage := if 0 < total then p.giftValue / total * 100 else 0 })
    game := { st.game with totalPotBalance := total, totalPlayers := count } }

/-! ## add_gifts_to_game -/

/-- One element of the `p_gift_selections` jsonb array. -/
structure GiftSelection where
  giftId : Nat
  quantity : Int
  totalValue : ℚ
deriving DecidableEq, Repr

/-- `SELECT emoji FROM gifts WHERE id = g` (`NULL` when the id is unknown). -/
def emojiOf (gifts : List GiftRow) (g : Nat) : Option String :=
  (gifts.find? (fun r => r.giftId == g)).map (fun r => r.emoji)

/-- The `FOR i IN 1..v_quantity LOOP v_arr := array_append(v_arr, e)` loop:
`array_append` of a NULL array yields a one-element array, so a NULL
accumulator becomes non-NULL on the first append. -/
def appendCopies (arr : Option (List (Option String))) (e : Option String) :
    Nat → Option (List (Option String))
  | 0 => arr
  | n + 1 => appendCopies (some (arr.getD [] ++ [e])) e n

/-- The `INSERT .. ON CONFLICT (game_participant_id, gift_id) DO UPDATE`
on `game_participant_gifts`, with its upsert-with-merge meaning. -/
def upsertParticipantGift (pgs : List ParticipantGiftRow) (pid : Nat)
    (s : GiftSelection) : List ParticipantGiftRow :=
  if pgs.any (fun r => r.gameParticipantId == pid && r.giftId == s.giftId) then
    pgs.map (fun r =>
      if r.gameParticipantId == pid && r.giftId == s.giftId then
        { r with quantity := r.quantity + s.quantity,
                 totalValue := r.totalValue + s.totalValue }
      else r)
  else
    pgs ++ [⟨pid, s.giftId, s.quantity, s.totalValue⟩]

/-- `UPDATE player_gifts SET quantity = quantity - v_quantity WHERE
player_id = .. AND gift_id = ..` — no availability check of any kind. -/
def debitWallet (inv : List PlayerGiftRow) (playerId : Nat)
    (s : GiftSelection) : List PlayerGiftRow :=
  inv.map (fun r =>
    if r.playerId == playerId && r.giftId == s.giftId then
      { r with quantity := r.quantity - s.quantity }
    else r)

/-- The accumulator threaded through the selection loop of
`add_gifts_to_game`: the evolving state plus the local variables
`v_current_gift_value` and `v_current_gifts_array` (both nullable: a
`SELECT INTO` that finds no row leaves them NULL, and NULL propagates
through `+`). -/
def processSelection (playerId pid : Nat)
    (acc : GameState × Option ℚ × Option (List (Option String)))
    (s : GiftSelection) : GameState × Option ℚ × Option (List (Option String)) :=
  ( { acc.1 with
      participantGifts := upsertParticipantGift acc.1.participantGifts pid s,
      playerGifts := debitWallet acc.1.playerGifts playerId s },
    acc.2.1.map (fun v => v + s.totalValue),
    appendCopies acc.2.2 (emojiOf acc.1.gifts s.giftId) s.quantity.toNat )

/-- The countdown block of `add_gifts_to_game`: when the participant
count has reached 2, set `countdown_ends_at` to now + 60 seconds — but
only if it is still NULL (`WHERE .. AND countdown_ends_at IS NULL`). -/
def maybeStartCountdown (st : GameState) (now : ℚ) : GameState :=
  if 2 ≤ st.participants.length then
    if st.game.countdownEndsAt = none then
      { st with game := { st.game with countdownEndsAt := some (now + 60) } }
    else st
  else st

/-- The final `UPDATE game_participants SET gift_value = .., gifts_array
= .. WHERE id = ..` of `add_gifts_to_game`. -/
def updateParticipantRow (st : GameState) (pid : Nat) (v : ℚ)
    (arr : Option (List (Option String))) : GameState :=
  { st with participants := st.participants.map (fun p =>
    if p.rowId == pid then { p with giftValue := v, giftsArray := arr.getD [] } else p) }

/-- The `INSERT INTO game_logs` at the end of `add_gifts_to_game`. -/
def appendJoinLog (st : GameState) (playerId : Nat) (playerName : String)
    (v : ℚ) : GameState :=
  { st with logs := st.logs ++
      [⟨some playerId, "join", playerName ++ " added gifts worth " ++ toString v ++ " TON!"⟩] }

/-- The final steps of a successful `add_gifts_to_game` run: write the
accumulated value and array back to the participant row, recalculate the
chances, start the countdown when the participant count has reached 2 and
the deadline is still unset, and append the log entry. -/
def finishAddGifts (st : GameState) (pid : Nat) (v : ℚ)
    (arr : Option (List (Option String))) (playerId : Nat)
    (playerName : String) (now : ℚ) : GameState :=
  appendJoinLog
    (maybeStartCountdown (recalculate_game_chances (updateParticipantRow st pid v arr)) now)
    playerId playerName v

/-- The PL/pgSQL RPC `add_gifts_to_game`.  Faithful to the source: the
initial `SELECT INTO` sets the three local variables to NULL when the
player has no participant row yet, so on the brand-new-participant path
the value accumulator stays NULL through the loop and the final
`UPDATE game_participants SET gift_value = NULL` violates the NOT NULL
constraint — the whole call errors and rolls back.  The
`INSERT .. ON CONFLICT .. DO UPDATE` on `game_participant_gifts` is
modelled with its upsert-with-merge meaning. -/
def add_gifts_to_game (st : GameState) (playerId : Nat)
    (sels : List GiftSelection) (playerColor : String) (playerPosition : Int)
    (playerName : String) (now : ℚ) : Except String GameState :=
  let found := st.participants.find? (fun p => p.playerId == playerId)
  let pid := match found with
    | some r => r.rowId
    | none => st.nextRowId
  let st1 := match found with
    | some _ => st
    | none =>
      { st with
        participants := st.participants ++
          [⟨st.nextRowId, playerId, playerName, 0, 0, playerColor, playerPosition, []⟩],
        nextRowId := st.nextRowId + 1 }
  let curVal0 : Option ℚ := found.map (fun r => r.giftValue)
  let curArr0 : Option (List (Option String)) := found.map (fun r => r.giftsArray)
  let res := sels.foldl (processSelection playerId pid) (st1, curVal0, curArr0)
  match res.2.1 with
  | none => Except.error "null value in column gift_value violates not-null constraint"
  | some v => Except.ok (finishAddGifts res.1 pid v res.2.2 playerId playerName now)

/-! ## Client side: participants query and the wheel (useGameDatabase.ts / WheelGame.tsx) -/

/-- A `game_participants` row as returned by `getGameParticipants`
(`select("*, players(*)")`, filtered by game id, **no ordering clause**),
including the joined `players` fields the formatter reads. -/
structure ParticipantQueryRow where
  playerId : Nat
  playerName : String
  giftValue : ℚ
  color : Option String
  position : Int
  giftsArray : List String
  username : Option String
  firstName : Option String
deriving DecidableEq, Repr

/-- The `Player` object of the client (`useGameDatabase.ts`). -/
structure Player where
  id : Nat
  name : String
  balance : ℚ
  color : String
  gifts : List String
  giftValue : ℚ
deriving DecidableEq, Repr

/-- The body of the `participants.map` in `loadGameParticipants`.  Uuids
are modelled as naturals, so the truncated-uuid default label
`Player $\{p.player_id.substring(0,4)}` is modelled as the full id. -/
def formatParticipant (p : ParticipantQueryRow) : Player :=
  { id := p.playerId
    name := jsOr p.playerName (jsOr (p.username.getD "")
      (jsOr (p.firstName.getD "") ("Player " ++ toString p.playerId)))
    balance := 0
    color := jsOr (p.color.getD "") "#CCCCCC"
    gifts := p.giftsArray
    giftValue := p.giftValue }

/-- `loadGameParticipants`: the rows come back from the store in whatever
order the query returns them (the query has no `order` clause); the
formatter preserves that order. -/
def loadGameParticipants (rows : List ParticipantQueryRow) : List Player :=
  rows.map formatParticipant

/-- The weight a participant carries on the wheel
(`player.balance + player.giftValue` in `spinWheel`). -/
def playerWeight (p : Player) : ℚ :=
  p.balance + p.giftValue

/-- `activePlayers.reduce((sum, player) => sum + player.balance + player.giftValue, 0)`. -/
def totalValue (l : List Player) : ℚ :=
  l.foldl (fun s p => s + playerWeight p) 0

/-- The winner-selection loop of `spinWheel` with its running sum:
`currentSum += playerValue; if (randomValue <= currentSum) selectedWinner = player`. -/
def selectWinnerAux (r : ℚ) : List Player → ℚ → Option Player
  | [], _ => none
  | p :: rest, currentSum =>
    let s := currentSum + playerWeight p
    if r ≤ s then some p else selectWinnerAux r rest s

/-- The winner selection of `spinWheel`: walk the player list accumulating
running sums starting from 0 and pick the first player whose cumulative
sum reaches the draw `r`. -/
def selectWinner (l : List Player) (r : ℚ) : Option Player :=
  selectWinnerAux r l 0

/-- Modelled from the spec: the Draw Engine is specified to walk the
participants "ordered deterministically (by join position)"; the code has
no such ordering, so this comparison ordering is built from the spec's
words (ascending insertion sort on the `position` column). -/
def insertByPosition (p : ParticipantQueryRow) :
    List ParticipantQueryRow → List ParticipantQueryRow
  | [] => [p]
  | x :: xs => if p.position ≤ x.position then p :: x :: xs else x :: insertByPosition p xs

/-- Modelled from the spec: sort the queried participant rows by join
position, as the spec's Draw Engine prescribes. -/
def sortByPosition : List ParticipantQueryRow → List ParticipantQueryRow
  | [] => []
  | x :: xs => insertByPosition x (sortByPosition xs)

/-- Prefix sums of the wheel weights: the cumulative sum after the first
`n` players. -/
def cumSum (l : List Player) (n : Nat) : ℚ :=
  ((l.take n).map playerWeight).sum

/-- The arguments `spinWheel` hands to `completeGame` on draw completion. -/
structure CompleteGameArgs where
  gameId : Nat
  winnerPlayerId : Nat
  winnerChance : ℚ
  totalPot : ℚ
deriving DecidableEq, Repr

/-- `activePlayers.reduce((sum, player) => sum + player.giftValue, 0)`. -/
def totalGiftValue (l : List Player) : ℚ :=
  l.foldl (fun s p => s + p.giftValue) 0

/-- The completion data flow of `spinWheel`: guard on at least two
players, select the winner by the weighted walk, and call
`completeGame(currentGameId, currentPlayer.id, winnerChance, totalGiftValue)`
— the source passes the id of the *local* `currentPlayer`, and uses
`selectedWinner` only for the chance computation, the logs and the local
match-history entry. -/
def spinWheelCompleteArgs (activePlayers : List Player)
    (currentGameId currentPlayerId : Nat) (r : ℚ) : Option CompleteGameArgs :=
  if activePlayers.length < 2 then none
  else
    match selectWinner activePlayers r with
    | none => none
    | some w =>
      some { gameId := currentGameId
             winnerPlayerId := currentPlayerId
             winnerChance := playerWeight w / totalValue activePlayers * 100
             totalPot := totalGiftValue activePlayers }

/-! ## Supabase helper layer: completeGame and getMatchHistory (supabase.ts) -/

/-- A row of the `players` table. -/
structure PlayerRow where
  id : Nat
  telegramUserId : Nat
  username : Option String
  firstName : Option String
  lastName : Option String
  photoUrl : Option String
deriving DecidableEq, Repr

/-- The columns of a `games` row that `completeGame` touches or returns. -/
structure GamesRow where
  id : Nat
  rollNumber : Nat
  status : String
  winnerPlayerId : Option Nat
  completedAt : Option ℚ
deriving DecidableEq, Repr

/-- A `game_participants` row as seen by the snapshot query of
`completeGame` (columns plus the joined player profile). -/
structure DbParticipantRow where
  gameId : Nat
  playerId : Nat
  playerName : String
  giftValue : ℚ
  chancePercentage : ℚ
  color : Option String
deriving DecidableEq, Repr

/-- The player-profile part of a snapshot entry, captured from the
`players` join at archive time. -/
structure SnapshotProfile where
  telegramUserId : Nat
  username : Option String
  firstName : Option String
  lastName : Option String
  photoUrl : Option String
deriving DecidableEq, Repr

/-- One element of the `players_snapshot` jsonb stored in `match_history`. -/
structure SnapshotEntry where
  playerId : Nat
  playerName : String
  giftValue : ℚ
  chancePercentage : ℚ
  color : Option String
  profile : Option SnapshotProfile
deriving DecidableEq, Repr

/-- A row of `match_history`. -/
structure MatchHistoryRow where
  gameId : Nat
  rollNumber : Nat
  winnerPlayerId : Nat
  winnerName : String
  winnerChance : ℚ
  totalPot : ℚ
  playersSnapshot : List SnapshotEntry
  timestamp : ℚ
deriving DecidableEq, Repr

/-- The database slice the Supabase helpers read and write. -/
structure Db where
  players : List PlayerRow
  games : List GamesRow
  gameParticipants : List DbParticipantRow
  matchHistory : List MatchHistoryRow
deriving DecidableEq, Repr

/-- Build one `players_snapshot` element from a live participant row and
its joined player profile. -/
def mkSnapshotEntry (players : List PlayerRow) (p : DbParticipantRow) : SnapshotEntry :=
  { playerId := p.playerId
    playerName := p.playerName
    giftValue := p.giftValue
    chancePercentage := p.chancePercentage
    color := p.color
    profile := (players.find? (fun pl => pl.id == p.playerId)).map (fun pl =>
      ⟨pl.telegramUserId, pl.username, pl.firstName, pl.lastName, pl.photoUrl⟩) }

/-- The per-row payload of the `games` update in `completeGame`. -/
def completeUpd (winnerPlayerId : Nat) (now : ℚ) (r : GamesRow) : GamesRow :=
  { r with status := "completed", winnerPlayerId := some winnerPlayerId,
           completedAt := some now }

/-- `dbHelpers.completeGame`: snapshot the game's current participants,
look up the winner's profile for the stored `winner_name`
(`username || first_name || "Unknown Winner"`), update the `games` row
(filtered **only by id** — no status condition) to `completed`, and insert
one `match_history` row.  The `.single()` calls error when the winner or
the game row is missing. -/
def completeGame (db : Db) (gameId winnerPlayerId : Nat)
    (winnerChance totalPot now : ℚ) : Except String Db :=
  let snapshot := (db.gameParticipants.filter (fun p => p.gameId == gameId)).map
    (mkSnapshotEntry db.players)
  match db.players.find? (fun pl => pl.id == winnerPlayerId) with
  | none => Except.error "PGRST116: winner player not found"
  | some wrow =>
    let winnerName := jsOr (wrow.username.getD "")
      (jsOr (wrow.firstName.getD "") "Unknown Winner")
    match db.games.find? (fun g => g.id == gameId) with
    | none => Except.error "PGRST116: game not found"
    | some g =>
      Except.ok
        { db with
          games := db.games.map (fun r =>
            if r.id == gameId then completeUpd winnerPlayerId now r else r)
          matchHistory := db.matchHistory ++
            [⟨gameId, g.rollNumber, winnerPlayerId, winnerName, winnerChance,
              totalPot, snapshot, now⟩] }

/-- Insertion step for the most-recent-first ordering of `getMatchHistory`
(`order("timestamp", { ascending: false })`). -/
def insertByTimestamp (m : MatchHistoryRow) :
    List MatchHistoryRow → List MatchHistoryRow
  | [] => [m]
  | x :: xs => if x.timestamp ≤ m.timestamp then m :: x :: xs else x :: insertByTimestamp m xs

/-- Sort history rows by timestamp, newest first. -/
def sortByTimestampDesc : List MatchHistoryRow → List MatchHistoryRow
  | [] => []
  | x :: xs => insertByTimestamp x (sortByTimestampDesc xs)

/-- A participant of a formatted history entry, as produced by the
`players_snapshot?.map` in `getMatchHistory`. -/
structure HistoryPlayer where
  id : Nat
  name : String
  balance : ℚ
  color : Option String
  giftValue : ℚ
  profile : Option SnapshotProfile
deriving DecidableEq, Repr

/-- A formatted history entry returned by `getMatchHistory`. -/
structure HistoryEntry where
  rollNumber : Nat
  timestamp : ℚ
  winnerId : Option Nat
  winnerName : String
  winnerChance : ℚ
  totalPot : ℚ
  players : List HistoryPlayer
deriving DecidableEq, Repr

/-- One roster element of a history read.  The select aliases
`players_snapshot:game_participants(..., telegram_user_id:players(...))`:
like the `winner:players(...)` embed in the same select string, this is
PostgREST alias:relation syntax — a **live** embed of the
`game_participants` table with a nested live `players` join, shadowing
the stored `players_snapshot` jsonb column — so each element is built
from the current participant row and the current player profile. -/
def liveHistoryPlayer (players : List PlayerRow) (p : DbParticipantRow) : HistoryPlayer :=
  { id := p.playerId, name := p.playerName, balance := 0, color := p.color,
    giftValue := p.giftValue,
    profile := (players.find? (fun pl => pl.id == p.playerId)).map (fun pl =>
      ⟨pl.telegramUserId, pl.username, pl.firstName, pl.lastName, pl.photoUrl⟩) }

/-- Format one `match_history` row.  The winner object comes from the
live `winner:players(...)` join on `winner_player_id`
(`match.winner?.username || match.winner?.first_name || "Unknown"`); the
roster comes from the live `game_participants` embed aliased as
`players_snapshot` (the stored jsonb column of that name is shadowed and
never read back); only the scalar columns of the row itself
(`roll_number`, `winner_chance`, `total_pot`, `timestamp`) are returned
as stored.  `match_history` has no foreign key to `game_participants`,
so the real PostgREST call cannot resolve this embed and errors; the
model adopts the select's intended non-error semantics — the rows of the
entry's game, joined live — and under either reading no frozen roster is
ever returned. -/
def formatMatch (db : Db) (m : MatchHistoryRow) : HistoryEntry :=
  let w := db.players.find? (fun pl => pl.id == m.winnerPlayerId)
  { rollNumber := m.rollNumber
    timestamp := m.timestamp
    winnerId := w.map (fun pl => pl.id)
    winnerName := jsOr ((w.bind (fun pl => pl.username)).getD "")
      (jsOr ((w.bind (fun pl => pl.firstName)).getD "") "Unknown")
    winnerChance := m.winnerChance
    totalPot := m.totalPot
    players := (db.gameParticipants.filter (fun p => p.gameId == m.gameId)).map
      (liveHistoryPlayer db.players) }

/-- `dbHelpers.getMatchHistory`: read `match_history` ordered newest
first, limited, and format each row against the current database state. -/
def getMatchHistory (db : Db) (limit : Nat) : List HistoryEntry :=
  ((sortByTimestampDesc db.matchHistory).take limit).map (formatMatch db)

/-! ## Derived descriptions of the selection loop (used to state theorems) -/

/-- Sum of the `totalValue` fields of a submission. -/
def selsTotal (sels : List GiftSelection) : ℚ :=
  (sels.map (fun s => s.totalValue)).sum

/-- The emojis a submission appends to the participant's `gifts_array`,
in loop order. -/
def selsEmojis (gifts : List GiftRow) : List GiftSelection → List (Option String)
  | [] => []
  | s :: rest =>
    List.replicate s.quantity.toNat (emojiOf gifts s.giftId) ++ selsEmojis gifts rest

/-- Total quantity a submission requests for one gift type. -/
def requestedQty : List GiftSelection → Nat → Int
  | [], _ => 0
  | s :: rest, g => (if g == s.giftId then s.quantity else 0) + requestedQty rest g

/-- The net effect of the selection loop on the wallet: every row of the
submitting player is debited by the full requested quantity of its gift
type, with no availability check. -/
def decWallet (l : List PlayerGiftRow) (q : Nat) (sels : List GiftSelection) :
    List PlayerGiftRow :=
  l.map (fun pg =>
    if pg.playerId == q then
      { pg with quantity := pg.quantity - requestedQty sels pg.giftId }
    else pg)

/-- The net effect of the selection loop on `game_participant_gifts`:
one upsert per selection, in loop order. -/
def upsertAll (pgs : List ParticipantGiftRow) (pid : Nat) :
    List GiftSelection → List ParticipantGiftRow
  | [] => pgs
  | s :: rest => upsertAll (upsertParticipantGift pgs pid s) pid rest

/-- Replace the session status, leaving everything else unchanged. -/
def withStatus (st : GameState) (s : String) : GameState :=
  { st with game := { st.game with status := s } }

/-! ## Concrete states used by witnesses and counterexamples -/

/-- Two-participant state: Alice (player 1) already holds 2 TON of gifts,
Bob (player 2) holds 1 TON; no countdown yet; Alice owns 2 units of
gift 5. -/
def stC1 : GameState :=
  { game := ⟨"waiting", 3, 2, none⟩
    participants := [⟨10, 1, "Alice", 2, 0, "red", 0, []⟩, ⟨11, 2, "Bob", 1, 0, "blue", 1, []⟩]
    participantGifts := []
    playerGifts := [⟨1, 5, 2⟩]
    gifts := [⟨5, "g"⟩]
    logs := []
    nextRowId := 20 }

/-- The state produced by the C1 witness submission. -/
def c1res : GameState :=
  match add_gifts_to_game stC1 1 [⟨5, 1, 1⟩] "c" 0 "Alice" 100 with
  | Except.ok s => s
  | Except.error _ => stC1

/-- Two-participant state for the merge witness: Alice joined first with
name, color and position captured then. -/
def stC4 : GameState :=
  { game := ⟨"waiting", 5, 2, none⟩
    participants := [⟨10, 1, "Alice", 4, 80, "red", 0, [some "g"]⟩, ⟨11, 2, "Bob", 1, 20, "blue", 1, []⟩]
    participantGifts := [⟨10, 5, 4, 4⟩]
    playerGifts := [⟨1, 5, 3⟩]
    gifts := [⟨5, "g"⟩]
    logs := []
    nextRowId := 20 }

/-- The state produced by the C4 witness resubmission. -/
def c4res : GameState :=
  match add_gifts_to_game stC4 1 [⟨5, 2, 2⟩] "green" 7 "NotAlice" 100 with
  | Except.ok s => s
  | Except.error _ => stC4

/-- Two-participant state with no countdown yet, for the countdown
witness. -/
def stC5 : GameState :=
  { game := ⟨"waiting", 3, 2, none⟩
    participants := [⟨10, 1, "Alice", 2, 0, "red", 0, []⟩, ⟨11, 2, "Bob", 1, 0, "blue", 1, []⟩]
    participantGifts := []
    playerGifts := [⟨1, 5, 5⟩]
    gifts := [⟨5, "g"⟩]
    logs := []
    nextRowId := 20 }

/-- The state produced by the C5 witness submission. -/
def c5res : GameState :=
  match add_gifts_to_game stC5 1 [⟨5, 1, 1⟩] "c" 0 "Alice" 100 with
  | Except.ok s => s
  | Except.error _ => stC5

/-- State where Alice owns only 1 unit of gift 5 but will submit 3. -/
def stC6 : GameState :=
  { game := ⟨"waiting", 2, 1, none⟩
    participants := [⟨10, 1, "Alice", 2, 100, "red", 0, []⟩]
    participantGifts := []
    playerGifts := [⟨1, 5, 1⟩]
    gifts := [⟨5, "g"⟩]
    logs := []
    nextRowId := 20 }

/-- The state produced by the over-sized C6 submission. -/
def c6res : GameState :=
  match add_gifts_to_game stC6 1 [⟨5, 3, 3⟩] "c" 0 "Alice" 100 with
  | Except.ok s => s
  | Except.error _ => stC6

/-- State of a session that has already left `waiting`/`counting_down`:
the deadline has passed and the status is `drawing`. -/
def stC7 : GameState :=
  { game := ⟨"drawing", 3, 2, some 50⟩
    participants := [⟨10, 1, "Alice", 2, 0, "red", 0, []⟩, ⟨11, 2, "Bob", 1, 0, "blue", 1, []⟩]
    participantGifts := []
    playerGifts := [⟨1, 5, 5⟩]
    gifts := [⟨5, "g"⟩]
    logs := []
    nextRowId := 20 }

/-- The state produced by the post-deadline C7 submission. -/
def c7res : GameState :=
  match add_gifts_to_game stC7 1 [⟨5, 1, 1⟩] "c" 0 "Alice" 200 with
  | Except.ok s => s
  | Except.error _ => stC7

/-- Database with one expired session (id 1) and its winner profile, no
history yet. -/
def db8 : Db :=
  { players := [⟨9, 900, some "winner", some "W", none, none⟩]
    games := [⟨1, 42, "counting_down", none, none⟩]
    gameParticipants := [⟨1, 9, "winner", 10, 100, some "red"⟩]
    matchHistory := [] }

/-- Result of resolving session 1 once. -/
def c8resA : Db :=
  match completeGame db8 1 9 50 100 5 with
  | Except.ok d => d
  | Except.error _ => db8

/-- Result of resolving session 1 a second time. -/
def c8resB : Db :=
  match completeGame c8resA 1 9 50 100 6 with
  | Except.ok d => d
  | Except.error _ => c8resA

/-- The single archived `match_history` row used by the C9 scenarios. -/
def c9row : MatchHistoryRow :=
  ⟨1, 1, 1, "alice", 50, 100, [⟨1, "alice", 100, 100, some "red", none⟩], 5⟩

/-- Database with one archived history entry whose winner (player 1) is
currently named "alice" and whose game-1 participant row still carries
the name "alice". -/
def db9 : Db :=
  { players := [⟨1, 100, some "alice", some "Alice", none, none⟩]
    games := []
    gameParticipants := [⟨1, 1, "alice", 100, 100, some "red"⟩]
    matchHistory := [c9row] }

/-- The same database after post-archival changes: player 1's profile is
renamed to "bob" and the game-1 participant row is rewritten to "carol";
the archived `match_history` rows are untouched. -/
def db9b : Db :=
  { db9 with
    players := [⟨1, 100, some "bob", some "Bob", none, none⟩]
    gameParticipants := [⟨1, 1, "carol", 7, 100, some "red"⟩] }

/-- The two players of the C2 failing input: the local player A (id 1)
staked 1 TON, B (id 2) staked 9 TON. -/
def c2PlayerA : Player := ⟨1, "A", 0, "red", [], 1⟩

/-- Player B of the C2 failing input. -/
def c2PlayerB : Player := ⟨2, "B", 0, "blue", [], 9⟩

/-- Database for the C2 failing input: game 1 open, both players present. -/
def dbC2 : Db :=
  { players := [⟨1, 100, some "A", none, none, none⟩, ⟨2, 200, some "B", none, none, none⟩]
    games := [⟨1, 7, "counting_down", none, none⟩]
    gameParticipants := [⟨1, 1, "A", 1, 10, some "red"⟩, ⟨1, 2, "B", 9, 90, some "blue"⟩]
    matchHistory := [] }

/-- The database state after `spinWheel`'s completion call on the C2
failing input. -/
def c2res : Db :=
  match completeGame dbC2 1 1 90 10 77 with
  | Except.ok d => d
  | Except.error _ => dbC2

/-- Participant row that joined second (position 1) but is stored first. -/
def c3rowA : ParticipantQueryRow := ⟨1, "A", 1, some "red", 1, [], none, none⟩

/-- Participant row that joined first (position 0) but is stored second. -/
def c3rowB : ParticipantQueryRow := ⟨2, "B", 1, some "blue", 0, [], none, none⟩

/-- Two players with weights 2 and 3 for the totality witness. -/
def c10l : List Player := [⟨1, "A", 0, "red", [], 2⟩, ⟨2, "B", 0, "blue", [], 3⟩]

/-- Two players with weights 2 and 3 for the interval witness. -/
def c3wl : List Player := [⟨1, "A", 0, "red", [], 2⟩, ⟨2, "B", 0, "blue", [], 3⟩]

/-! ## Lemmas about the selection loop -/

theorem appendCopies_some (e : Option String) :
    ∀ (n : Nat) (a : List (Option String)),
    appendCopies (some a) e n = some (a ++ List.replicate n e) := by
  intro n
  induction n with
  | zero => intro a; simp [appendCopies]
  | succ m ih =>
    intro a
    simp only [appendCopies, Option.getD_some]
    rw [ih]
    simp [List.replicate_succ]

theorem foldProcess_none (q pid : Nat) :
    ∀ (sels : List GiftSelection) (st : GameState) (a : Option (List (Option String))),
    (sels.foldl (processSelection q pid) (st, none, a)).2.1 = none := by
  intro sels
  induction sels with
  | nil => intro st a; rfl
  | cons s rest ih =>
    intro st a
    simp only [List.foldl_cons]
    exact ih _ _

theorem decWallet_nil (q : Nat) :
    ∀ l : List PlayerGiftRow, decWallet l q [] = l := by
  intro l
  induction l with
  | nil => rfl
  | cons pg t ih =>
    simp only [decWallet, List.map_cons] at ih ⊢
    rw [ih]
    cases pg with
    | mk pid gid qty =>
      by_cases hp : pid = q <;> simp [requestedQty, hp]

theorem decWallet_step (q : Nat) (s : GiftSelection) (rest : List GiftSelection)
    (l : List PlayerGiftRow) :
    decWallet (debitWallet l q s) q rest = decWallet l q (s :: rest) := by
  simp only [decWallet, debitWallet, List.map_map]
  apply List.map_congr_left
  intro pg _
  cases pg with
  | mk pid gid qty =>
    by_cases hp : pid = q
    · by_cases hg : gid = s.giftId
      · simp [hp, hg, requestedQty, sub_sub]
      · simp [hp, hg, requestedQty]
    · simp [hp]

theorem processSelection_some (q pid : Nat) (st : GameState) (v : ℚ)
    (a : List (Option String)) (s : GiftSelection) :
    processSelection q pid (st, some v, some a) s =
      ({ st with
          participantGifts := upsertParticipantGift st.participantGifts pid s,
          playerGifts := debitWallet st.playerGifts q s },
        some (v + s.totalValue),
        some (a ++ List.replicate s.quantity.toNat (emojiOf st.gifts s.giftId))) := by
  simp [processSelection, appendCopies_some]

theorem foldProcess_eq (q pid : Nat) :
    ∀ (sels : List GiftSelection) (st : GameState) (v : ℚ) (a : List (Option String)),
    sels.foldl (processSelection q pid) (st, some v, some a) =
      ({ st with participantGifts := upsertAll st.participantGifts pid sels,
                 playerGifts := decWallet st.playerGifts q sels },
        some (v + selsTotal sels), some (a ++ selsEmojis st.gifts sels)) := by
  intro sels
  induction sels with
  | nil =>
    intro st v a
    simp [selsTotal, selsEmojis, decWallet_nil, upsertAll]
  | cons s rest ih =>
    intro st v a
    rw [List.foldl_cons, processSelection_some]
    rw [ih
      { st with
        participantGifts := upsertParticipantGift st.participantGifts pid s,
        playerGifts := debitWallet st.playerGifts q s }
      (v + s.totalValue)
      (a ++ List.replicate s.quantity.toNat (emojiOf st.gifts s.giftId))]
    simp only [selsTotal, selsEmojis, List.map_cons, List.sum_cons, List.append_assoc]
    rw [decWallet_step]
    simp [add_assoc, upsertAll]

theorem add_gifts_none (st : GameState) (q : Nat) (sels : List GiftSelection)
    (c : String) (pos : Int) (nm : String) (now : ℚ)
    (h : st.participants.find? (fun p => p.playerId == q) = none) :
    add_gifts_to_game st q sels c pos nm now =
      Except.error "null value in column gift_value violates not-null constraint" := by
  simp only [add_gifts_to_game, h, Option.map_none']
  rw [foldProcess_none]

theorem add_gifts_found (st : GameState) (q : Nat) (sels : List GiftSelection)
    (c : String) (pos : Int) (nm : String) (now : ℚ) (r : ParticipantRow)
    (h : st.participants.find? (fun p => p.playerId == q) = some r) :
    add_gifts_to_game st q sels c pos nm now =
      Except.ok (finishAddGifts
        { st with participantGifts := upsertAll st.participantGifts r.rowId sels,
                  playerGifts := decWallet st.playerGifts q sels }
        r.rowId (r.giftValue + selsTotal sels)
        (some (r.giftsArray ++ selsEmojis st.gifts sels)) q nm now) := by
  simp only [add_gifts_to_game, h, Option.map_some']
  rw [foldProcess_eq]

theorem add_gifts_ok_found (st : GameState) (q : Nat) (sels : List GiftSelection)
    (c : String) (pos : Int) (nm : String) (now : ℚ) (st' : GameState)
    (hok : add_gifts_to_game st q sels c pos nm now = Except.ok st') :
    ∃ r, st.participants.find? (fun p => p.playerId == q) = some r := by
  cases hfind : st.participants.find? (fun p => p.playerId == q) with
  | none =>
    rw [add_gifts_none st q sels c pos nm now hfind] at hok
    cases hok
  | some r => exact ⟨r, rfl⟩

/-! ## Lemmas about recalculate_game_chances and finishAddGifts -/

theorem sumGiftValues_map_chance (l : List ParticipantRow) (f : ParticipantRow → ℚ) :
    sumGiftValues (l.map (fun p => { p with chancePercentage := f p })) = sumGiftValues l := by
  simp only [sumGiftValues, List.map_map]
  rfl

theorem sum_map_div_mul (T : ℚ) :
    ∀ l : List ParticipantRow,
    (l.map (fun p => p.giftValue / T * 100)).sum = sumGiftValues l / T * 100 := by
  intro l
  induction l with
  | nil => simp [sumGiftValues]
  | cons p t ih =>
    simp only [sumGiftValues, List.map_cons, List.sum_cons] at ih ⊢
    rw [ih, add_div, add_mul]

theorem recalc_pot_eq (s : GameState) :
    (recalculate_game_chances s).game.totalPotBalance =
      sumGiftValues (recalculate_game_chances s).participants := by
  simp only [recalculate_game_chances]
  rw [sumGiftValues_map_chance]

theorem recalc_chance_mem (s : GameState) (p : ParticipantRow)
    (hp : p ∈ (recalculate_game_chances s).participants) :
    p.chancePercentage =
      if 0 < (recalculate_game_chances s).game.totalPotBalance then
        p.giftValue / (recalculate_game_chances s).game.totalPotBalance * 100
      else 0 := by
  simp only [recalculate_game_chances, List.mem_map] at hp
  obtain ⟨p0, _, rfl⟩ := hp
  rfl

theorem recalc_sum_100 (s : GameState)
    (h : 0 < (recalculate_game_chances s).game.totalPotBalance) :
    ((recalculate_game_chances s).participants.map (fun p => p.chancePercentage)).sum = 100 := by
  have hT : (recalculate_game_chances s).game.totalPotBalance = sumGiftValues s.participants := rfl
  rw [hT] at h
  simp only [recalculate_game_chances, List.map_map]
  have hcomp : ((fun p : ParticipantRow => p.chancePercentage) ∘
      (fun p : ParticipantRow =>
        { p with chancePercentage :=
            if 0 < sumGiftValues s.participants then
              p.giftValue / sumGiftValues s.participants * 100
            else 0 })) =
      fun p : ParticipantRow => p.giftValue / sumGiftValues s.participants * 100 := by
    funext p
    simp [Function.comp, if_pos h]
  rw [hcomp, sum_map_div_mul, div_self (ne_of_gt h), one_mul]

theorem finish_participants_eq (st : GameState) (pid : Nat) (v : ℚ)
    (arr : Option (List (Option String))) (q : Nat) (nm : String) (now : ℚ) :
    (finishAddGifts st pid v arr q nm now).participants =
      (recalculate_game_chances (updateParticipantRow st pid v arr)).participants := by
  unfold finishAddGifts appendJoinLog maybeStartCountdown
  dsimp only
  split
  · split <;> rfl
  · rfl

theorem finish_totalPot_eq (st : GameState) (pid : Nat) (v : ℚ)
    (arr : Option (List (Option String))) (q : Nat) (nm : String) (now : ℚ) :
    (finishAddGifts st pid v arr q nm now).game.totalPotBalance =
      (recalculate_game_chances (updateParticipantRow st pid v arr)).game.totalPotBalance := by
  unfold finishAddGifts appendJoinLog maybeStartCountdown
  dsimp only
  split
  · split <;> rfl
  · rfl

theorem finish_playerGifts_eq (st : GameState) (pid : Nat) (v : ℚ)
    (arr : Option (List (Option String))) (q : Nat) (nm : String) (now : ℚ) :
    (finishAddGifts st pid v arr q nm now).playerGifts = st.playerGifts := by
  unfold finishAddGifts appendJoinLog maybeStartCountdown
  dsimp only
  split
  · split <;> rfl
  · rfl

theorem finish_countdown_eq (st : GameState) (pid : Nat) (v : ℚ)
    (arr : Option (List (Option String))) (q : Nat) (nm : String) (now : ℚ) :
    (finishAddGifts st pid v arr q nm now).game.countdownEndsAt =
      if 2 ≤ st.participants.length then
        (if st.game.countdownEndsAt = none then some (now + 60)
         else st.game.countdownEndsAt)
      else st.game.countdownEndsAt := by
  unfold finishAddGifts appendJoinLog maybeStartCountdown recalculate_game_chances
    updateParticipantRow
  dsimp only
  rw [List.length_map, List.length_map]
  split
  · split <;> rfl
  · rfl

theorem finish_length_eq (st : GameState) (pid : Nat) (v : ℚ)
    (arr : Option (List (Option String))) (q : Nat) (nm : String) (now : ℚ) :
    (finishAddGifts st pid v arr q nm now).participants.length =
      st.participants.length := by
  rw [finish_participants_eq]
  simp [recalculate_game_chances, updateParticipantRow]

/-- Claim C1: after every successful contribution submission
(`add_gifts_to_game`), the session's recorded total pot equals the sum of
all participants' contribution values; every participant's win-probability
is 0 when the total pot is 0 and equals 100 times their value divided by
the total pot when the pot is positive; and whenever the pot is positive
the probabilities across all participants sum to 100. -/
theorem add_gifts_recomputes_pot_and_chances (st : GameState) (q : Nat)
    (sels : List GiftSelection) (c : String) (pos : Int) (nm : String)
    (now : ℚ) (st' : GameState)
    (hok : add_gifts_to_game st q sels c pos nm now = Except.ok st') :
    st'.game.totalPotBalance = sumGiftValues st'.participants ∧
    (st'.game.totalPotBalance = 0 → ∀ p ∈ st'.participants, p.chancePercentage = 0) ∧
    (0 < st'.game.totalPotBalance → ∀ p ∈ st'.participants,
      p.chancePercentage = 100 * (p.giftValue / st'.game.totalPotBalance)) ∧
    (0 < st'.game.totalPotBalance →
      (st'.participants.map (fun p => p.chancePercentage)).sum = 100) := by
  obtain ⟨r, hfind⟩ := add_gifts_ok_found _ _ _ _ _ _ _ _ hok
  have heq := add_gifts_found st q sels c pos nm now r hfind
  rw [heq] at hok
  injection hok with hinj
  subst hinj
  refine ⟨?_, ?_, ?_, ?_⟩
  · rw [finish_totalPot_eq, finish_participants_eq]
    exact recalc_pot_eq _
  · intro h0 p hp
    rw [finish_participants_eq] at hp
    have hc := recalc_chance_mem _ p hp
    rw [finish_totalPot_eq] at h0
    rw [h0] at hc
    simpa using hc
  · intro hpos p hp
    rw [finish_participants_eq] at hp
    have hc := recalc_chance_mem _ p hp
    rw [finish_totalPot_eq] at hpos
    rw [if_pos hpos] at hc
    rw [hc, finish_totalPot_eq, mul_comm]
  · intro hpos
    rw [finish_participants_eq]
    rw [finish_totalPot_eq] at hpos
    exact recalc_sum_100 _ hpos

/-- Witness for C1: Alice resubmits 1 TON on top of her 2 TON in a
two-participant session; the recorded pot is 4 and the recomputed
chances are 75 and 25, summing to 100. -/
theorem add_gifts_recomputes_pot_and_chances_witness :
    add_gifts_to_game stC1 1 [⟨5, 1, 1⟩] "c" 0 "Alice" 100 = Except.ok c1res ∧
    (c1res.game.totalPotBalance = sumGiftValues c1res.participants ∧
    (c1res.game.totalPotBalance = 0 → ∀ p ∈ c1res.participants, p.chancePercentage = 0) ∧
    (0 < c1res.game.totalPotBalance → ∀ p ∈ c1res.participants,
      p.chancePercentage = 100 * (p.giftValue / c1res.game.totalPotBalance)) ∧
    (0 < c1res.game.totalPotBalance →
      (c1res.participants.map (fun p => p.chancePercentage)).sum = 100)) :=
  ⟨rfl, add_gifts_recomputes_pot_and_chances stC1 1 [⟨5, 1, 1⟩] "c" 0 "Alice" 100 c1res
    rfl⟩

/-- Claim C4: a successful repeated contribution submission by the same
player merges into the existing participant record: the row identities,
names, colors and positions of all participants are unchanged, the number
of records for the player is unchanged (no duplicate is created), and the
player's existing record accumulates the submitted value and items. -/
theorem repeat_submission_merges_participant (st : GameState) (q : Nat)
    (sels : List GiftSelection) (c : String) (pos : Int) (nm : String)
    (now : ℚ) (st' : GameState)
    (hok : add_gifts_to_game st q sels c pos nm now = Except.ok st') :
    ∃ r, st.participants.find? (fun p => p.playerId == q) = some r ∧
      st'.participants.map (fun p => (p.rowId, p.playerId, p.playerName, p.color, p.position)) =
        st.participants.map (fun p => (p.rowId, p.playerId, p.playerName, p.color, p.position)) ∧
      st'.participants.countP (fun p => p.playerId == q) =
        st.participants.countP (fun p => p.playerId == q) ∧
      ∃ r' ∈ st'.participants, r'.rowId = r.rowId ∧ r'.playerName = r.playerName ∧
        r'.color = r.color ∧ r'.position = r.position ∧
        r'.giftValue = r.giftValue + selsTotal sels ∧
        r'.giftsArray = r.giftsArray ++ selsEmojis st.gifts sels := by
  obtain ⟨r, hfind⟩ := add_gifts_ok_found _ _ _ _ _ _ _ _ hok
  have heq := add_gifts_found st q sels c pos nm now r hfind
  rw [heq] at hok
  injection hok with hinj
  subst hinj
  have hproj : ∀ l : List ParticipantRow,
      l.countP (fun p => p.playerId == q) =
        (l.map (fun p => (p.rowId, p.playerId, p.playerName, p.color, p.position))).countP
          (fun t => t.2.1 == q) := by
    intro l
    rw [List.countP_map]
    rfl
  have hmap : (finishAddGifts
      { st with participantGifts := upsertAll st.participantGifts r.rowId sels,
                playerGifts := decWallet st.playerGifts q sels }
      r.rowId (r.giftValue + selsTotal sels)
      (some (r.giftsArray ++ selsEmojis st.gifts sels)) q nm now).participants.map
        (fun p => (p.rowId, p.playerId, p.playerName, p.color, p.position)) =
      st.participants.map (fun p => (p.rowId, p.playerId, p.playerName, p.color, p.position)) := by
    rw [finish_participants_eq]
    simp only [recalculate_game_chances, updateParticipantRow, List.map_map]
    apply List.map_congr_left
    intro p _
    by_cases h : p.rowId = r.rowId <;> simp [h]
  refine ⟨r, hfind, hmap, ?_, ?_⟩
  · rw [hproj, hproj, hmap]
  · rw [finish_participants_eq]
    simp only [recalculate_game_chances, updateParticipantRow, List.map_map]
    refine ⟨_, List.mem_map_of_mem _ (List.mem_of_find?_eq_some hfind), ?_⟩
    simp

/-- Witness for C4: Alice (player 1) resubmits 2 TON; her record keeps
the original name "Alice", color "red" and position 0 despite the
resubmission carrying name "NotAlice", color "green" and position 7, and
accumulates value 4 + 2 and one more emoji. -/
theorem repeat_submission_merges_participant_witness :
    add_gifts_to_game stC4 1 [⟨5, 2, 2⟩] "green" 7 "NotAlice" 100 = Except.ok c4res ∧
    (∃ r, stC4.participants.find? (fun p => p.playerId == 1) = some r ∧
      c4res.participants.map (fun p => (p.rowId, p.playerId, p.playerName, p.color, p.position)) =
        stC4.participants.map (fun p => (p.rowId, p.playerId, p.playerName, p.color, p.position)) ∧
      c4res.participants.countP (fun p => p.playerId == 1) =
        stC4.participants.countP (fun p => p.playerId == 1) ∧
      ∃ r' ∈ c4res.participants, r'.rowId = r.rowId ∧ r'.playerName = r.playerName ∧
        r'.color = r.color ∧ r'.position = r.position ∧
        r'.giftValue = r.giftValue + selsTotal [⟨5, 2, 2⟩] ∧
        r'.giftsArray = r.giftsArray ++ selsEmojis stC4.gifts [⟨5, 2, 2⟩]) :=
  ⟨rfl, repeat_submission_merges_participant stC4 1 [⟨5, 2, 2⟩] "green" 7 "NotAlice" 100 c4res rfl⟩

/-- Claim C5: on every successful submission, a countdown deadline that
was already set is left exactly as it was, and an unset deadline is set to
now plus 60 seconds exactly when the participant count has reached the
quorum of 2. -/
theorem countdown_set_once (st : GameState) (q : Nat)
    (sels : List GiftSelection) (c : String) (pos : Int) (nm : String)
    (now : ℚ) (st' : GameState)
    (hok : add_gifts_to_game st q sels c pos nm now = Except.ok st') :
    (∀ d, st.game.countdownEndsAt = some d → st'.game.countdownEndsAt = some d) ∧
    (st.game.countdownEndsAt = none →
      st'.game.countdownEndsAt =
        if 2 ≤ st'.participants.length then some (now + 60) else none) := by
  obtain ⟨r, hfind⟩ := add_gifts_ok_found _ _ _ _ _ _ _ _ hok
  have heq := add_gifts_found st q sels c pos nm now r hfind
  rw [heq] at hok
  injection hok with hinj
  subst hinj
  rw [finish_countdown_eq]
  constructor
  · intro d hd
    dsimp only
    rw [hd]
    split <;> simp
  · intro hn
    dsimp only
    rw [hn, finish_length_eq]
    dsimp only
    split <;> simp

/-- Witness for C5: Alice's submission in a two-participant session with
no deadline set produces the deadline now + 60 = 160; the already-set
branch is covered by the conditional. -/
theorem countdown_set_once_witness :
    add_gifts_to_game stC5 1 [⟨5, 1, 1⟩] "c" 0 "Alice" 100 = Except.ok c5res ∧
    ((∀ d, stC5.game.countdownEndsAt = some d → c5res.game.countdownEndsAt = some d) ∧
    (stC5.game.countdownEndsAt = none →
      c5res.game.countdownEndsAt =
        if 2 ≤ c5res.participants.length then some (100 + 60) else none)) :=
  ⟨rfl, countdown_set_once stC5 1 [⟨5, 1, 1⟩] "c" 0 "Alice" 100 c5res rfl⟩

/-- Counterexample for C6: Alice owns 1 unit of gift 5 but submits a
quantity of 3; the submission succeeds (no validation, no failure), the
state changes, and her wallet row is driven to the negative quantity -2 —
refuting that an over-sized submission fails with no partial debit and no
state change. -/
theorem insufficient_inventory_not_rejected :
    stC6.playerGifts = [⟨1, 5, 1⟩] ∧
    add_gifts_to_game stC6 1 [⟨5, 3, 3⟩] "c" 0 "Alice" 100 = Except.ok c6res ∧
    c6res.playerGifts = [⟨1, 5, -2⟩] ∧
    c6res.playerGifts ≠ stC6.playerGifts := by
  refine ⟨rfl, rfl, by decide, by decide⟩

/-- Amended C6: no validation against the wallet is performed — every
successful submission debits each of the player's wallet rows by the full
requested quantity for its gift type, unconditionally, even when the
requested quantity exceeds the available quantity (the stored quantity may
become negative). -/
theorem submission_debits_unconditionally (st : GameState) (q : Nat)
    (sels : List GiftSelection) (c : String) (pos : Int) (nm : String)
    (now : ℚ) (st' : GameState)
    (hok : add_gifts_to_game st q sels c pos nm now = Except.ok st') :
    st'.playerGifts = st.playerGifts.map (fun pg =>
      if pg.playerId == q then
        { pg with quantity := pg.quantity - requestedQty sels pg.giftId }
      else pg) := by
  obtain ⟨r, hfind⟩ := add_gifts_ok_found _ _ _ _ _ _ _ _ hok
  have heq := add_gifts_found st q sels c pos nm now r hfind
  rw [heq] at hok
  injection hok with hinj
  subst hinj
  rw [finish_playerGifts_eq]
  rfl

/-- Witness for amended C6: the over-sized submission debits Alice's
wallet row from 1 to -2. -/
theorem submission_debits_unconditionally_witness :
    add_gifts_to_game stC6 1 [⟨5, 3, 3⟩] "c" 0 "Alice" 100 = Except.ok c6res ∧
    c6res.playerGifts = stC6.playerGifts.map (fun pg =>
      if pg.playerId == 1 then
        { pg with quantity := pg.quantity - requestedQty [⟨5, 3, 3⟩] pg.giftId }
      else pg) :=
  ⟨rfl, submission_debits_unconditionally stC6 1 [⟨5, 3, 3⟩] "c" 0 "Alice" 100 c6res rfl⟩

/-- Counterexample for C7: the session is in status `drawing` (it has
left `waiting`/`counting_down`; its deadline, 50, has passed — the
submission arrives at time 200), yet the submission is applied: it
succeeds and changes the participant rows instead of being rejected. -/
theorem post_deadline_submission_not_rejected :
    stC7.game.status = "drawing" ∧
    add_gifts_to_game stC7 1 [⟨5, 1, 1⟩] "c" 0 "Alice" 200 = Except.ok c7res ∧
    c7res.game.status = "drawing" ∧
    c7res.participants.map (fun p => p.giftsArray) ≠
      stC7.participants.map (fun p => p.giftsArray) := by
  refine ⟨rfl, rfl, by decide, by decide⟩

theorem processSelection_withStatus (q pid : Nat) (s : String)
    (st : GameState) (v : Option ℚ) (a : Option (List (Option String)))
    (sel : GiftSelection) :
    processSelection q pid (withStatus st s, v, a) sel =
      ((withStatus (processSelection q pid (st, v, a) sel).1 s),
        (processSelection q pid (st, v, a) sel).2.1,
        (processSelection q pid (st, v, a) sel).2.2) := rfl

theorem fold_withStatus (q pid : Nat) (s : String) :
    ∀ (sels : List GiftSelection) (st : GameState) (v : Option ℚ)
      (a : Option (List (Option String))),
    sels.foldl (processSelection q pid) (withStatus st s, v, a) =
      ((withStatus (sels.foldl (processSelection q pid) (st, v, a)).1 s),
        (sels.foldl (processSelection q pid) (st, v, a)).2.1,
        (sels.foldl (processSelection q pid) (st, v, a)).2.2) := by
  intro sels
  induction sels with
  | nil => intro st v a; rfl
  | cons sel rest ih =>
    intro st v a
    rw [List.foldl_cons, List.foldl_cons, processSelection_withStatus]
    exact ih (processSelection q pid (st, v, a) sel).1
      (processSelection q pid (st, v, a) sel).2.1
      (processSelection q pid (st, v, a) sel).2.2

theorem recalc_withStatus (t : GameState) (s : String) :
    recalculate_game_chances (withStatus t s) =
      withStatus (recalculate_game_chances t) s := rfl

theorem maybeStartCountdown_withStatus (t : GameState) (s : String) (now : ℚ) :
    maybeStartCountdown (withStatus t s) now =
      withStatus (maybeStartCountdown t now) s := by
  unfold maybeStartCountdown withStatus
  dsimp only
  split
  · split <;> rfl
  · rfl

theorem updateParticipantRow_withStatus (t : GameState) (s : String)
    (pid : Nat) (v : ℚ) (arr : Option (List (Option String))) :
    updateParticipantRow (withStatus t s) pid v arr =
      withStatus (updateParticipantRow t pid v arr) s := rfl

theorem appendJoinLog_withStatus (t : GameState) (s : String) (q : Nat)
    (nm : String) (v : ℚ) :
    appendJoinLog (withStatus t s) q nm v =
      withStatus (appendJoinLog t q nm v) s := rfl

theorem finish_withStatus (st : GameState) (s : String) (pid : Nat) (v : ℚ)
    (arr : Option (List (Option String))) (q : Nat) (nm : String) (now : ℚ) :
    finishAddGifts (withStatus st s) pid v arr q nm now =
      withStatus (finishAddGifts st pid v arr q nm now) s := by
  unfold finishAddGifts
  rw [updateParticipantRow_withStatus, recalc_withStatus, maybeStartCountdown_withStatus,
    appendJoinLog_withStatus]

/-- Amended C7: `add_gifts_to_game` performs no session-status check at
all — its outcome on a session in any status equals its outcome on the
same session in any other status, with the status passed through
unchanged.  In particular a submission arriving after the session left
`waiting`/`counting_down` is applied exactly as it would have been before,
not rejected. -/
theorem add_gifts_ignores_status (st : GameState) (s : String) (q : Nat)
    (sels : List GiftSelection) (c : String) (pos : Int) (nm : String) (now : ℚ) :
    add_gifts_to_game (withStatus st s) q sels c pos nm now =
      (add_gifts_to_game st q sels c pos nm now).map (fun t => withStatus t s) := by
  cases hfind : st.participants.find? (fun p => p.playerId == q) with
  | none =>
    rw [add_gifts_none st q sels c pos nm now hfind,
      add_gifts_none (withStatus st s) q sels c pos nm now hfind]
    rfl
  | some r =>
    rw [add_gifts_found st q sels c pos nm now r hfind,
      add_gifts_found (withStatus st s) q sels c pos nm now r hfind]
    show Except.ok (finishAddGifts
        (withStatus
          { st with participantGifts := upsertAll st.participantGifts r.rowId sels,
                    playerGifts := decWallet st.playerGifts q sels } s)
        r.rowId (r.giftValue + selsTotal sels)
        (some (r.giftsArray ++ selsEmojis st.gifts sels)) q nm now) =
      Except.map (fun t => withStatus t s) (Except.ok (finishAddGifts
        { st with participantGifts := upsertAll st.participantGifts r.rowId sels,
                  playerGifts := decWallet st.playerGifts q sels }
        r.rowId (r.giftValue + selsTotal sels)
        (some (r.giftsArray ++ selsEmojis st.gifts sels)) q nm now))
    rw [finish_withStatus]
    rfl

/-! ## Lemmas about the winner-selection loop -/

theorem selectWinnerAux_shift (l : List Player) :
    ∀ (r c : ℚ), selectWinnerAux r l c = selectWinnerAux (r - c) l 0 := by
  induction l with
  | nil => intro r c; rfl
  | cons p t ih =>
    intro r c
    simp only [selectWinnerAux, zero_add]
    by_cases h : r ≤ c + playerWeight p
    · rw [if_pos h, if_pos (by linarith : r - c ≤ playerWeight p)]
    · rw [if_neg h, if_neg (by linarith : ¬ r - c ≤ playerWeight p)]
      rw [ih r (c + playerWeight p), ih (r - c) (playerWeight p)]
      have harith : r - (c + playerWeight p) = r - c - playerWeight p := by ring
      rw [harith]

theorem selectWinnerAux_mem (l : List Player) :
    ∀ (r c : ℚ) (x : Player), selectWinnerAux r l c = some x → x ∈ l := by
  induction l with
  | nil => intro r c x h; cases h
  | cons p t ih =>
    intro r c x h
    simp only [selectWinnerAux] at h
    by_cases hle : r ≤ c + playerWeight p
    · rw [if_pos hle] at h
      cases h
      exact List.mem_cons_self _ _
    · rw [if_neg hle] at h
      exact List.mem_cons_of_mem _ (ih _ _ _ h)

theorem cumSum_zero (l : List Player) : cumSum l 0 = 0 := rfl

theorem cumSum_cons (p : Player) (t : List Player) (n : Nat) :
    cumSum (p :: t) (n + 1) = playerWeight p + cumSum t n := by
  simp [cumSum, List.take_succ_cons]

theorem cumSum_nonneg (l : List Player)
    (h : ∀ p ∈ l, 0 ≤ playerWeight p) (n : Nat) : 0 ≤ cumSum l n := by
  apply List.sum_nonneg
  intro x hx
  obtain ⟨p, hp, rfl⟩ := List.mem_map.mp hx
  exact h p (List.mem_of_mem_take hp)

theorem totalValue_eq_sum (l : List Player) :
    totalValue l = (l.map playerWeight).sum := by
  have key : ∀ (t : List Player) (c : ℚ),
      t.foldl (fun s p => s + playerWeight p) c = c + (t.map playerWeight).sum := by
    intro t
    induction t with
    | nil => intro c; simp
    | cons p u ih => intro c; simp [ih, add_assoc]
  simpa [totalValue] using key l 0

/-- Claim C10: for every non-empty player list with non-negative wheel
weights and every draw value `r` with `0 ≤ r < totalValue` (or `r = 0`
when the total is 0, the only draw `Math.random() * 0` can produce), the
winner-selection loop of `spinWheel` selects some player; and when every
weight is 0 it selects the first player. -/
theorem selectWinner_total (l : List Player) (r : ℚ) (hne : l ≠ [])
    (hnn : ∀ p ∈ l, 0 ≤ playerWeight p) (h0 : 0 ≤ r)
    (hlt : r < totalValue l ∨ (totalValue l = 0 ∧ r = 0)) :
    (selectWinner l r).isSome = true ∧
    ((∀ p ∈ l, playerWeight p = 0) → selectWinner l r = some (l.head hne)) := by
  have key : ∀ (t : List Player) (c x : ℚ), x ≤ c + (t.map playerWeight).sum →
      t ≠ [] → (selectWinnerAux x t c).isSome = true := by
    intro t
    induction t with
    | nil => intro c x _ hne2; exact absurd rfl hne2
    | cons p u ih =>
      intro c x hx _
      simp only [selectWinnerAux]
      by_cases hle : x ≤ c + playerWeight p
      · rw [if_pos hle]; rfl
      · rw [if_neg hle]
        cases hu : u with
        | nil =>
          exfalso
          apply hle
          simp only [hu, List.map_cons, List.map_nil, List.sum_cons, List.sum_nil,
            add_zero] at hx
          simpa using hx
        | cons q w =>
          rw [← hu]
          apply ih (c + playerWeight p) x
          · simp only [List.map_cons, List.sum_cons] at hx
            linarith
          · simp [hu]
  have hsum : r ≤ 0 + (l.map playerWeight).sum := by
    rcases hlt with hlt1 | ⟨ht, hr⟩
    · rw [totalValue_eq_sum] at hlt1
      linarith
    · rw [totalValue_eq_sum] at ht
      rw [hr, ht]
      norm_num
  refine ⟨key l 0 r hsum hne, ?_⟩
  intro hz
  cases l with
  | nil => exact absurd rfl hne
  | cons p t =>
    have hp0 : playerWeight p = 0 := hz p (List.mem_cons_self _ _)
    have hr0 : r = 0 := by
      rcases hlt with hlt1 | ⟨_, hr⟩
      · rw [totalValue_eq_sum] at hlt1
        have : (List.map playerWeight (p :: t)).sum = 0 :=
          List.sum_eq_zero (by
            intro x hx
            obtain ⟨y, hy, rfl⟩ := List.mem_map.mp hx
            exact hz y hy)
        rw [this] at hlt1
        linarith
      · exact hr
    subst hr0
    simp [selectWinner, selectWinnerAux, hp0]

/-- Witness for C10: with weights 2 and 3 and draw 4 the loop selects a
player (the second one); the all-zero clause holds vacuously here. -/
theorem selectWinner_total_witness :
    (selectWinner c10l 4).isSome = true ∧
    ((∀ p ∈ c10l, playerWeight p = 0) → selectWinner c10l 4 = some (c10l.head (by decide))) :=
  selectWinner_total c10l 4 (by decide)
    (by
      intro p hp
      simp only [c10l, List.mem_cons, List.mem_singleton] at hp
      rcases hp with rfl | hp
      · norm_num [playerWeight]
      · rcases hp with rfl | hp
        · norm_num [playerWeight]
        · cases hp)
    (by norm_num)
    (Or.inl (by norm_num [totalValue, c10l, playerWeight]))

/-- Amended C3: the draw of `spinWheel` is uniform in `[0, total)` and the
loop walks the player list **in the order the participants query returned
it** (the query applies no ordering by join position), accumulating
running sums and selecting the first player whose cumulative sum reaches
the draw.  Characterization: for distinct players with non-negative
weights, player `i` is selected exactly when the draw lies in
`(cumSum i, cumSum (i+1)]` — for `i = 0`, in `[0, cumSum 1]` — an interval
of length equal to the player's staked value, with a draw exactly on a
cumulative boundary resolving to the earlier-listed player. -/
theorem selectWinner_first_cumulative_interval :
    ∀ (l : List Player), l.Nodup → (∀ p ∈ l, 0 ≤ playerWeight p) →
    ∀ (r : ℚ), 0 ≤ r → ∀ (i : Nat) (hi : i < l.length),
    (selectWinner l r = some (l.get ⟨i, hi⟩) ↔
      ((cumSum l i < r ∨ i = 0) ∧ r ≤ cumSum l (i + 1))) := by
  intro l
  induction l with
  | nil =>
    intro _ _ r _ i hi
    exact absurd hi (by simp)
  | cons p t ih =>
    intro hnd hnn r h0 i hi
    have hw : 0 ≤ playerWeight p := hnn p (List.mem_cons_self _ _)
    have hndt : t.Nodup := (List.nodup_cons.mp hnd).2
    have hpt : p ∉ t := (List.nodup_cons.mp hnd).1
    have hnnt : ∀ q ∈ t, 0 ≤ playerWeight q := fun q hq => hnn q (List.mem_cons_of_mem _ hq)
    have hsel : selectWinner (p :: t) r =
        if r ≤ playerWeight p then some p else selectWinner t (r - playerWeight p) := by
      simp only [selectWinner, selectWinnerAux, zero_add]
      by_cases hle : r ≤ playerWeight p
      · rw [if_pos hle, if_pos hle]
      · rw [if_neg hle, if_neg hle, selectWinnerAux_shift]
    by_cases hle : r ≤ playerWeight p
    · rw [hsel, if_pos hle]
      cases i with
      | zero =>
        constructor
        · intro _
          refine ⟨Or.inr rfl, ?_⟩
          rw [cumSum_cons, cumSum_zero, add_zero]
          exact hle
        · intro _
          rfl
      | succ j =>
        have hj : j < t.length := by simpa using hi
        have hget : (p :: t).get ⟨j + 1, hi⟩ = t.get ⟨j, hj⟩ := rfl
        constructor
        · intro hps
          exfalso
          rw [hget] at hps
          have hpe : p = t.get ⟨j, hj⟩ := by injection hps
          rw [hpe] at hpt
          exact hpt (t.get_mem _ _)
        · rintro ⟨h1, h2⟩
          exfalso
          rcases h1 with h1 | h1
          · rw [cumSum_cons] at h1
            have hnn2 : 0 ≤ cumSum t j := cumSum_nonneg t hnnt j
            linarith
          · exact Nat.succ_ne_zero j h1
    · have hgt : playerWeight p < r := lt_of_not_le hle
      have hr' : 0 ≤ r - playerWeight p := by linarith
      rw [hsel, if_neg hle]
      cases i with
      | zero =>
        constructor
        · intro hps
          exfalso
          have hmem := selectWinnerAux_mem t (r - playerWeight p) 0 p hps
          exact hpt hmem
        · rintro ⟨_, h2⟩
          exfalso
          rw [cumSum_cons, cumSum_zero, add_zero] at h2
          linarith
      | succ j =>
        have hj : j < t.length := by simpa using hi
        have hget : (p :: t).get ⟨j + 1, hi⟩ = t.get ⟨j, hj⟩ := rfl
        rw [hget, ih hndt hnnt (r - playerWeight p) hr' j hj]
        rw [cumSum_cons, cumSum_cons]
        constructor
        · rintro ⟨h1, h2⟩
          refine ⟨?_, by linarith⟩
          rcases h1 with h1 | h1
          · exact Or.inl (by linarith)
          · subst h1
            exact Or.inl (by rw [cumSum_zero]; linarith)
        · rintro ⟨h1, h2⟩
          refine ⟨?_, by linarith⟩
          rcases h1 with h1 | h1
          · exact Or.inl (by linarith)
          · exact absurd h1 (Nat.succ_ne_zero j)

/-- Counterexample for C3: the participants query applies no ordering, so
the loop walks the stored order, not join-position order.  Rows stored as
[A (position 1), B (position 0)] with equal values: the claim's
position-ordered walk selects B at draw 1/2, but the code selects A. -/
theorem draw_ignores_join_position_order :
    c3rowA.position = 1 ∧ c3rowB.position = 0 ∧
    loadGameParticipants [c3rowA, c3rowB] =
      [formatParticipant c3rowA, formatParticipant c3rowB] ∧
    sortByPosition [c3rowA, c3rowB] = [c3rowB, c3rowA] ∧
    selectWinner (loadGameParticipants [c3rowA, c3rowB]) (1/2) =
      some (formatParticipant c3rowA) ∧
    selectWinner (loadGameParticipants (sortByPosition [c3rowA, c3rowB])) (1/2) =
      some (formatParticipant c3rowB) ∧
    formatParticipant c3rowA ≠ formatParticipant c3rowB := by
  refine ⟨rfl, rfl, rfl, by decide, ?_, ?_, by decide⟩
  · norm_num [loadGameParticipants, formatParticipant, selectWinner, selectWinnerAux,
      playerWeight, jsOr, c3rowA, c3rowB]
  · norm_num [loadGameParticipants, formatParticipant, selectWinner, selectWinnerAux,
      sortByPosition, insertByPosition, playerWeight, jsOr, c3rowA, c3rowB]

/-- Witness for amended C3: with weights 2 and 3, the second player is
selected exactly for draws in (2, 5]; at draw 4 the characterization
applies. -/
theorem selectWinner_first_cumulative_interval_witness :
    selectWinner c3wl 4 = some (c3wl.get ⟨1, by decide⟩) ↔
      ((cumSum c3wl 1 < 4 ∨ 1 = 0) ∧ 4 ≤ cumSum c3wl 2) :=
  selectWinner_first_cumulative_interval c3wl (by decide)
    (by
      intro p hp
      simp only [c3wl, List.mem_cons, List.mem_singleton] at hp
      rcases hp with rfl | hp
      · norm_num [playerWeight]
      · rcases hp with rfl | hp
        · norm_num [playerWeight]
        · cases hp)
    4 (by norm_num) 1 (by decide)

/-- Claim C2 (code bug): on the failing input, the Draw Engine selects
player B (id 2), but `spinWheel` passes `currentPlayer.id` — the local
player A (id 1) — to `completeGame`, so both the completed session row
and the history entry record player 1 as the winner while the drawn
winner is player 2. -/
theorem spinWheel_writes_current_player_as_winner :
    selectWinner [c2PlayerA, c2PlayerB] 5 = some c2PlayerB ∧
    c2PlayerA.id = 1 ∧ c2PlayerB.id = 2 ∧
    (spinWheelCompleteArgs [c2PlayerA, c2PlayerB] 1 c2PlayerA.id 5).map
      (fun a => a.winnerPlayerId) = some 1 ∧
    completeGame dbC2 1 1 90 10 77 = Except.ok c2res ∧
    c2res.games.map (fun gm => gm.winnerPlayerId) = [some 1] ∧
    c2res.matchHistory.map (fun m => m.winnerPlayerId) = [1] := by
  refine ⟨?_, rfl, rfl, ?_, rfl, by decide, by decide⟩
  · norm_num [selectWinner, selectWinnerAux, playerWeight, c2PlayerA, c2PlayerB]
  · norm_num [spinWheelCompleteArgs, selectWinner, selectWinnerAux, playerWeight,
      c2PlayerA, c2PlayerB]

/-! ## Lemmas about completeGame and getMatchHistory -/

theorem completeGame_found (db : Db) (gameId wid : Nat) (ch pot now : ℚ)
    (g : GamesRow) (w : PlayerRow)
    (hw : db.players.find? (fun pl => pl.id == wid) = some w)
    (hg : db.games.find? (fun r => r.id == gameId) = some g) :
    completeGame db gameId wid ch pot now = Except.ok
      { db with
        games := db.games.map (fun r =>
          if r.id == gameId then completeUpd wid now r else r),
        matchHistory := db.matchHistory ++
          [⟨gameId, g.rollNumber, wid,
            jsOr (w.username.getD "") (jsOr (w.firstName.getD "") "Unknown Winner"),
            ch, pot,
            (db.gameParticipants.filter (fun p => p.gameId == gameId)).map
              (mkSnapshotEntry db.players), now⟩] } := by
  simp only [completeGame, hw, hg]

theorem find?_map_if_update (gid : Nat) (f : GamesRow → GamesRow)
    (hid : ∀ r, (f r).id = r.id) :
    ∀ l : List GamesRow,
    (l.map (fun r => if r.id == gid then f r else r)).find? (fun r => r.id == gid) =
      (l.find? (fun r => r.id == gid)).map f := by
  intro l
  induction l with
  | nil => rfl
  | cons a t ih =>
    by_cases ha : a.id = gid
    · simp [List.find?, ha, hid a]
    · simp only [List.map_cons]
      rw [List.find?_cons_of_neg _ (by simp [ha]), List.find?_cons_of_neg _ (by simp [ha])]
      exact ih

theorem map_id_of_if_update (gid : Nat) (f : GamesRow → GamesRow)
    (hid : ∀ r, (f r).id = r.id) (l : List GamesRow) :
    (l.map (fun r => if r.id == gid then f r else r)).map (fun r => r.id) =
      l.map (fun r => r.id) := by
  rw [List.map_map]
  apply List.map_congr_left
  intro r _
  by_cases hr : r.id = gid <;> simp [hr, hid r]

/-- Counterexample for C8: resolving the same expired session twice
produces two history entries, not one — the status transition is not
guarded (the games update filters only by id) and the history insert is
unconditional. -/
theorem double_resolution_duplicates_history :
    db8.matchHistory.length = 0 ∧
    completeGame db8 1 9 50 100 5 = Except.ok c8resA ∧
    completeGame c8resA 1 9 50 100 6 = Except.ok c8resB ∧
    c8resA.games.map (fun g => g.status) = ["completed"] ∧
    c8resA.matchHistory.length = 1 ∧
    c8resB.matchHistory.length = 2 := by
  refine ⟨rfl, rfl, rfl, by decide, by decide, by decide⟩

/-- Amended C8: `completeGame` is not guarded by a conditional status
transition: whenever the game row and the winner's player row exist, it
succeeds regardless of the current status — a second resolution succeeds
again on the already-completed session and appends a second history
entry.  Two resolutions leave a single (completed) session row but two
history entries. -/
theorem resolution_unguarded_appends_history (db : Db) (gameId wid : Nat)
    (ch pot t1 t2 : ℚ) (g : GamesRow) (w : PlayerRow)
    (hw : db.players.find? (fun pl => pl.id == wid) = some w)
    (hg : db.games.find? (fun r => r.id == gameId) = some g) :
    ∃ db' db'', completeGame db gameId wid ch pot t1 = Except.ok db' ∧
      completeGame db' gameId wid ch pot t2 = Except.ok db'' ∧
      db''.matchHistory.length = db.matchHistory.length + 2 ∧
      db''.games.map (fun r => r.id) = db.games.map (fun r => r.id) ∧
      (∀ r ∈ db''.games, r.id = gameId → r.status = "completed") := by
  have hid1 : ∀ r : GamesRow, (completeUpd wid t1 r).id = r.id := fun r => rfl
  have hid2 : ∀ r : GamesRow, (completeUpd wid t2 r).id = r.id := fun r => rfl
  have h1 := completeGame_found db gameId wid ch pot t1 g w hw hg
  set db' : Db :=
    { db with
      games := db.games.map (fun r =>
        if r.id == gameId then completeUpd wid t1 r else r),
      matchHistory := db.matchHistory ++
        [⟨gameId, g.rollNumber, wid,
          jsOr (w.username.getD "") (jsOr (w.firstName.getD "") "Unknown Winner"),
          ch, pot,
          (db.gameParticipants.filter (fun p => p.gameId == gameId)).map
            (mkSnapshotEntry db.players), t1⟩] } with hdb'
  have hg' : db'.games.find? (fun r => r.id == gameId) = some (completeUpd wid t1 g) := by
    rw [hdb']
    dsimp only
    rw [find?_map_if_update gameId (completeUpd wid t1) hid1 db.games, hg]
    rfl
  have hw' : db'.players.find? (fun pl => pl.id == wid) = some w := hw
  have h2 := completeGame_found db' gameId wid ch pot t2 (completeUpd wid t1 g) w hw' hg'
  refine ⟨db', _, h1, h2, ?_, ?_, ?_⟩
  · rw [hdb']
    simp [List.length_append]
  · rw [hdb']
    dsimp only
    rw [map_id_of_if_update gameId (completeUpd wid t2) hid2,
      map_id_of_if_update gameId (completeUpd wid t1) hid1]
  · intro r hr hrid
    rw [hdb'] at hr
    dsimp only at hr
    obtain ⟨r1, hr1, rfl⟩ := List.mem_map.mp hr
    by_cases hc : r1.id = gameId
    · simp [hc, completeUpd]
    · exfalso
      apply hc
      rw [if_neg (by simp [hc])] at hrid
      exact hrid

/-- Witness for amended C8: resolving session 1 of `db8` twice succeeds
both times and leaves two history entries and one completed session row. -/
theorem resolution_unguarded_appends_history_witness :
    ∃ db' db'', completeGame db8 1 9 50 100 5 = Except.ok db' ∧
      completeGame db' 1 9 50 100 6 = Except.ok db'' ∧
      db''.matchHistory.length = db8.matchHistory.length + 2 ∧
      db''.games.map (fun r => r.id) = db8.games.map (fun r => r.id) ∧
      (∀ r ∈ db''.games, r.id = 1 → r.status = "completed") :=
  resolution_unguarded_appends_history db8 1 9 50 100 5 6
    ⟨1, 42, "counting_down", none, none⟩
    ⟨9, 900, some "winner", some "W", none, none⟩
    (by decide) (by decide)

theorem mem_insertByTimestamp (m x : MatchHistoryRow) :
    ∀ l : List MatchHistoryRow, x ∈ insertByTimestamp m l ↔ x = m ∨ x ∈ l := by
  intro l
  induction l with
  | nil => simp [insertByTimestamp]
  | cons a t ih =>
    simp only [insertByTimestamp]
    split
    · simp [List.mem_cons]
    · simp only [List.mem_cons, ih]
      tauto

theorem mem_sortByTimestampDesc (x : MatchHistoryRow) :
    ∀ l : List MatchHistoryRow, x ∈ sortByTimestampDesc l ↔ x ∈ l := by
  intro l
  induction l with
  | nil => simp [sortByTimestampDesc]
  | cons a t ih =>
    simp only [sortByTimestampDesc, mem_insertByTimestamp, ih, List.mem_cons]

theorem insertByTimestamp_map_snapshot (f : MatchHistoryRow → List SnapshotEntry)
    (m : MatchHistoryRow) :
    ∀ l : List MatchHistoryRow,
    insertByTimestamp { m with playersSnapshot := f m }
        (l.map (fun x => { x with playersSnapshot := f x })) =
      (insertByTimestamp m l).map (fun x => { x with playersSnapshot := f x }) := by
  intro l
  induction l with
  | nil => rfl
  | cons a t ih =>
    simp only [insertByTimestamp, List.map_cons]
    by_cases h : a.timestamp ≤ m.timestamp
    · rw [if_pos h, if_pos h]
      rfl
    · rw [if_neg h, if_neg h]
      rw [ih]
      rfl

theorem sortByTimestampDesc_map_snapshot (f : MatchHistoryRow → List SnapshotEntry) :
    ∀ l : List MatchHistoryRow,
    sortByTimestampDesc (l.map (fun x => { x with playersSnapshot := f x })) =
      (sortByTimestampDesc l).map (fun x => { x with playersSnapshot := f x }) := by
  intro l
  induction l with
  | nil => rfl
  | cons a t ih =>
    simp only [sortByTimestampDesc, List.map_cons]
    rw [ih, insertByTimestamp_map_snapshot]

/-- Counterexample for C9: `db9b` differs from `db9` only in the live
tables — player 1's profile renamed to "bob" and the game-1
`game_participants` row rewritten to "carol" after archival — while the
archived `match_history` rows (whose stored snapshot still says "alice")
are identical.  A later history read reflects both changes: the winner
name and the roster come from live joins, not from the frozen archive. -/
theorem history_read_reflects_post_archival_changes :
    db9b.matchHistory = db9.matchHistory ∧
    c9row.playersSnapshot.map (fun p => p.playerName) = ["alice"] ∧
    (getMatchHistory db9 10).map (fun e => e.winnerName) = ["alice"] ∧
    (getMatchHistory db9b 10).map (fun e => e.winnerName) = ["bob"] ∧
    (getMatchHistory db9 10).map (fun e => e.players.map (fun p => p.name)) = [["alice"]] ∧
    (getMatchHistory db9b 10).map (fun e => e.players.map (fun p => p.name)) = [["carol"]] ∧
    getMatchHistory db9b 10 ≠ getMatchHistory db9 10 := by
  refine ⟨rfl, rfl, by decide, by decide, by decide, by decide, by decide⟩

/-- Amended C9: a history read never returns the archived roster: the
`players_snapshot` alias in the select is a live embed of the
`game_participants` table with a nested live `players` join, shadowing
the stored jsonb column (`match_history` has no foreign key to
`game_participants`, so the real call may instead fail outright), and
the winner's display name is likewise joined live from `players`.  Only
the scalar columns of the stored row come back as archived: replacing
every stored snapshot changes no read result, and every returned entry's
roster and winner name are computed from the current `game_participants`
and `players` tables. -/
theorem history_read_ignores_stored_snapshot (db : Db)
    (f : MatchHistoryRow → List SnapshotEntry) (n : Nat) :
    (getMatchHistory
        { db with matchHistory :=
            db.matchHistory.map (fun m => { m with playersSnapshot := f m }) } n =
      getMatchHistory db n) ∧
    (∀ e ∈ getMatchHistory db n, ∃ m ∈ db.matchHistory,
      e.rollNumber = m.rollNumber ∧ e.timestamp = m.timestamp ∧
      e.winnerChance = m.winnerChance ∧ e.totalPot = m.totalPot ∧
      e.players = (db.gameParticipants.filter (fun p => p.gameId == m.gameId)).map
        (liveHistoryPlayer db.players) ∧
      e.winnerName = jsOr
        (((db.players.find? (fun pl => pl.id == m.winnerPlayerId)).bind
          (fun pl => pl.username)).getD "")
        (jsOr (((db.players.find? (fun pl => pl.id == m.winnerPlayerId)).bind
          (fun pl => pl.firstName)).getD "") "Unknown")) := by
  constructor
  · simp only [getMatchHistory]
    rw [sortByTimestampDesc_map_snapshot]
    rw [← List.map_take, List.map_map]
    apply List.map_congr_left
    intro m _
    rfl
  · intro e he
    simp only [getMatchHistory, List.mem_map] at he
    obtain ⟨m, hm, rfl⟩ := he
    have hm2 : m ∈ db.matchHistory :=
      (mem_sortByTimestampDesc m db.matchHistory).mp (List.mem_of_mem_take hm)
    exact ⟨m, hm2, rfl, rfl, rfl, rfl, rfl, rfl⟩

/-- Witness for amended C9: instantiated on `db9` with every stored
snapshot blanked out (the read result is unchanged), and on the concrete
read entry of `db9` (roster and winner name computed live). -/
theorem history_read_ignores_stored_snapshot_witness :
    (getMatchHistory
        { db9 with matchHistory :=
            db9.matchHistory.map (fun m => { m with playersSnapshot := [] }) } 1 =
      getMatchHistory db9 1) ∧
    (∃ m ∈ db9.matchHistory,
      (formatMatch db9 c9row).rollNumber = m.rollNumber ∧
      (formatMatch db9 c9row).timestamp = m.timestamp ∧
      (formatMatch db9 c9row).winnerChance = m.winnerChance ∧
      (formatMatch db9 c9row).totalPot = m.totalPot ∧
      (formatMatch db9 c9row).players =
        (db9.gameParticipants.filter (fun p => p.gameId == m.gameId)).map
          (liveHistoryPlayer db9.players) ∧
      (formatMatch db9 c9row).winnerName = jsOr
        (((db9.players.find? (fun pl => pl.id == m.winnerPlayerId)).bind
          (fun pl => pl.username)).getD "")
        (jsOr (((db9.players.find? (fun pl => pl.id == m.winnerPlayerId)).bind
          (fun pl => pl.firstName)).getD "") "Unknown")) :=
  ⟨(history_read_ignores_stored_snapshot db9 (fun _ => []) 1).1,
   (history_read_ignores_stored_snapshot db9 (fun _ => []) 1).2
     (formatMatch db9 c9row) (by decide)⟩
